import Mathlib

/-!
Verification of the tool-call/result correlation logic of the
Upsonic/UCP-Agent repository (file streamlit_app.py).

The two functions under study are
`extract_tool_calls_from_messages(messages, start_index)` and the
streaming branch of `run_agent_with_tools(chat, prompt)`.  Both are
shallowly embedded below: Python values that the code inspects
(ids, names, result payloads) become the type `Val`; Python dicts used as
argument mappings become association lists; Python attribute access with
`getattr(x, f, default)` and `d.get(k, default)` become `Option` fields
read with `Option.getD`; the Python value `None` stored in a result slot
is the constructor `Val.vNone`, so the source test `tc["result"] is None`
is the decidable equation `result = Val.vNone`.
-/

namespace UCPAgent

/-- A Python value as far as the extraction code inspects one: `None`,
a string, or an integer.  Equality of two `Val`s models the source's
`==` comparison on correlation ids; `truthy` models Python truthiness
as used in `if result ...` and `a or b`. -/
inductive Val where
  | vNone : Val
  | vStr (s : String) : Val
  | vInt (n : Int) : Val
  deriving DecidableEq, Repr

/-- Python truthiness restricted to the values above: `None` is falsy,
a string is truthy iff non-empty, an integer is truthy iff non-zero. -/
def Val.truthy : Val → Bool
  | .vNone => false
  | .vStr s => s != ""
  | .vInt n => n != 0

/-- An argument mapping (a Python dict from parameter name to value). -/
abbrev Args := List (String × Val)

/-- One extracted tool invocation: the dict
with keys id, name, args, result built at lines 115-131 of
streamlit_app.py (and at lines 167-172 for the streaming path).
The `result` slot holds `Val.vNone` while unset, exactly as the Python
dict holds `None`. -/
structure ToolInvocation where
  id : Val
  name : Val
  args : Args
  result : Val
  deriving DecidableEq, Repr

/-- A tool-call descriptor in mapping shape (a Python dict); each field
is `none` when the corresponding key is absent, mirroring
`tc.get(key, default)` at lines 116-118. -/
structure TCMapping where
  tool_call_id : Option Val
  tool_name : Option Val
  args : Option Args
  deriving DecidableEq, Repr

/-- A tool-call descriptor in attribute shape (a Python object); each
field is `none` when the attribute is absent, mirroring
`getattr(tc, primary, getattr(tc, alternate, default))` at lines 123-125. -/
structure TCAttr where
  tool_call_id : Option Val
  id : Option Val
  tool_name : Option Val
  name : Option Val
  args : Option Args
  arguments : Option Args
  deriving DecidableEq, Repr

/-- The two shapes a tool-call descriptor can take, dispatched by
`isinstance(tc, dict)` at line 114. -/
inductive ToolCallDesc where
  | mapping (m : TCMapping) : ToolCallDesc
  | attr (a : TCAttr) : ToolCallDesc
  deriving DecidableEq, Repr

/-- A message record of the chat history as the extractor inspects it.
`tool_calls = none` covers both an absent attribute and a falsy value
(both skip the branch at line 111); `role`, `tool_call_id` and `content`
are `none` when the attribute is absent (`getattr(msg, f, None)`). -/
structure Msg where
  tool_calls : Option (List ToolCallDesc)
  role : Option String
  tool_call_id : Option Val
  content : Option Val
  deriving DecidableEq, Repr

/-- Decoding of one tool-call descriptor into a `ToolInvocation`
(lines 114-131).  `count` is `len(tool_calls)` at the moment the
descriptor is processed.  Mapping shape: `tc.get(key, default)`.
Attribute shape: primary attribute name first, then the alternate,
then the default. -/
def decodeDesc (count : Nat) : ToolCallDesc → ToolInvocation
  | .mapping m =>
    { id := m.tool_call_id.getD (Val.vStr (toString count))
      name := m.tool_name.getD (Val.vStr "unknown")
      args := m.args.getD []
      result := Val.vNone }
  | .attr a =>
    { id := a.tool_call_id.getD (a.id.getD (Val.vStr (toString count)))
      name := a.tool_name.getD (a.name.getD (Val.vStr "unknown"))
      args := a.args.getD (a.arguments.getD [])
      result := Val.vNone }

/-- The inner loop at lines 112-132: each descriptor is decoded with
`count` equal to the current length of the accumulator and appended. -/
def appendCalls (acc : List ToolInvocation) : List ToolCallDesc → List ToolInvocation
  | [] => acc
  | tc :: rest => appendCalls (acc ++ [decodeDesc acc.length tc]) rest

/-- The match loop at lines 139-142: walk the list, set the result of the
first invocation whose id equals the correlation key, then stop
(the Python loop breaks).  No match leaves the list unchanged. -/
def setFirstMatch (key res : Val) : List ToolInvocation → List ToolInvocation
  | [] => []
  | tc :: rest =>
    if tc.id = key then { tc with result := res } :: rest
    else tc :: setFirstMatch key res rest

/-- The fallback at lines 143-145: when the payload is truthy, the list
is non-empty, and the last invocation's result slot is still `None`,
store the payload in that last invocation. -/
def applyFallback (res : Val) (l : List ToolInvocation) : List ToolInvocation :=
  if res.truthy then
    match l.getLast? with
    | none => l
    | some last =>
      if last.result = Val.vNone then l.dropLast ++ [{ last with result := res }]
      else l
  else l

/-- Handling of one role-tool message (lines 134-145): first the id-match
loop, then the fallback.  Note the source runs the fallback whether or
not the loop found a match. -/
def processToolResult (key res : Val) (l : List ToolInvocation) : List ToolInvocation :=
  applyFallback res (setFirstMatch key res l)

/-- The body of the message loop (lines 109-145): append decoded
descriptors when the message carries a truthy `tool_calls`, then, when
the role is the string "tool", apply the tool-result handling with
key `getattr(msg, tool_call_id, None)` and payload
`getattr(msg, content, None)`. -/
def processMsg (acc : List ToolInvocation) (msg : Msg) : List ToolInvocation :=
  let acc1 :=
    match msg.tool_calls with
    | some tcs => if tcs.isEmpty then acc else appendCalls acc tcs
    | none => acc
  if msg.role = some "tool" then
    processToolResult (msg.tool_call_id.getD Val.vNone) (msg.content.getD Val.vNone) acc1
  else acc1

/-- `extract_tool_calls_from_messages(messages, start_index)`
(lines 105-147): fold the message handler over `messages[start_index:]`
starting from the empty list. -/
def extract_tool_calls_from_messages (messages : List Msg) (start_index : Nat) : List ToolInvocation :=
  (messages.drop start_index).foldl processMsg []

/-- A streaming event as consumed at lines 164-179: a tool-call event
(fields `tool_call_id`, `tool_name`, `tool_args`), a tool-result event
(fields `tool_call_id`, `result_preview`, `result`; an absent or empty
preview is a falsy `Val`), or any other event, which the loop ignores. -/
inductive StreamEvent where
  | toolCall (tool_call_id : Val) (tool_name : Val) (tool_args : Args) : StreamEvent
  | toolResult (tool_call_id : Val) (result_preview : Val) (result : Val) : StreamEvent
  | other : StreamEvent
  deriving DecidableEq, Repr

/-- Python `a or b`: `a` when truthy, else `b` (line 178). -/
def pyOr (a b : Val) : Val := if a.truthy then a else b

/-- One iteration of the event loop at lines 164-179: a tool-call event
appends a fresh invocation with result `None`; a tool-result event sets
the first id-matching invocation's result to
`event.result_preview or event.result` and stops; any other event is
ignored.  A result event with no matching id leaves the list unchanged. -/
def processEvent (acc : List ToolInvocation) : StreamEvent → List ToolInvocation
  | .toolCall cid cname cargs =>
    acc ++ [{ id := cid, name := cname, args := cargs, result := Val.vNone }]
  | .toolResult cid preview res =>
    setFirstMatch cid (pyOr preview res) acc
  | .other => acc

/-- The streaming branch of `run_agent_with_tools` (lines 159-182):
consume the event sequence in order starting from the empty invocation
list, then return the accumulated text together with the list. -/
def run_agent_with_tools_streaming (events : List StreamEvent) (accumulated_text : String) :
    String × List ToolInvocation :=
  (accumulated_text, events.foldl processEvent [])

/-- The identifying part of an invocation: everything except `result`. -/
def projInv (tc : ToolInvocation) : Val × Val × Args := (tc.id, tc.name, tc.args)

/-- The id/name/args skeleton of an invocation list, used to state that
tool-result handling touches only result slots. -/
def skeleton (l : List ToolInvocation) : List (Val × Val × Args) := l.map projInv

/-- The invocations contributed by a run of descriptors when `n`
invocations were already extracted. -/
def newOnes (n : Nat) : List ToolCallDesc → List ToolInvocation
  | [] => []
  | tc :: rest => decodeDesc n tc :: newOnes (n + 1) rest

end UCPAgent

namespace UCPAgent

theorem appendCalls_eq : ∀ (tcs : List ToolCallDesc) (acc : List ToolInvocation),
    appendCalls acc tcs = acc ++ newOnes acc.length tcs
  | [], acc => by simp [appendCalls, newOnes]
  | tc :: rest, acc => by
    rw [appendCalls, appendCalls_eq rest]
    simp [newOnes, List.append_assoc]

theorem newOnes_length : ∀ (n : Nat) (tcs : List ToolCallDesc),
    (newOnes n tcs).length = tcs.length
  | _, [] => rfl
  | n, _ :: rest => by simp [newOnes, newOnes_length (n + 1) rest]

theorem setFirstMatch_skeleton (key res : Val) :
    ∀ l : List ToolInvocation, skeleton (setFirstMatch key res l) = skeleton l
  | [] => rfl
  | tc :: rest => by
    by_cases h : tc.id = key
    · simp [setFirstMatch, h, skeleton, projInv]
    · simp only [setFirstMatch, if_neg h, skeleton, List.map_cons]
      have ih := setFirstMatch_skeleton key res rest
      simp only [skeleton] at ih
      rw [ih]

theorem setFirstMatch_nomatch (key res : Val) :
    ∀ l : List ToolInvocation, (∀ tc ∈ l, tc.id ≠ key) → setFirstMatch key res l = l
  | [], _ => rfl
  | tc :: rest, h => by
    have h1 : tc.id ≠ key := h tc (List.mem_cons_self tc rest)
    have h2 : ∀ x ∈ rest, x.id ≠ key := fun x hx => h x (List.mem_cons_of_mem tc hx)
    simp only [setFirstMatch, if_neg h1]
    rw [setFirstMatch_nomatch key res rest h2]

theorem setFirstMatch_first (key res : Val) (inv : ToolInvocation) (rest : List ToolInvocation)
    (hinv : inv.id = key) :
    ∀ init : List ToolInvocation, (∀ tc ∈ init, tc.id ≠ key) →
      setFirstMatch key res (init ++ inv :: rest) = init ++ { inv with result := res } :: rest
  | [], _ => by simp only [List.nil_append, setFirstMatch, if_pos hinv]
  | tc :: init, h => by
    have h1 : tc.id ≠ key := h tc (List.mem_cons_self tc init)
    have h2 : ∀ x ∈ init, x.id ≠ key := fun x hx => h x (List.mem_cons_of_mem tc hx)
    simp only [List.cons_append, setFirstMatch, if_neg h1, List.append_eq]
    rw [setFirstMatch_first key res inv rest hinv init h2]

theorem applyFallback_skeleton (res : Val) (l : List ToolInvocation) :
    skeleton (applyFallback res l) = skeleton l := by
  unfold applyFallback
  cases ht : res.truthy with
  | false => simp
  | true =>
    simp only [if_true]
    cases hl : l.getLast? with
    | none => simp
    | some last =>
      by_cases hres : last.result = Val.vNone
      · simp only [if_pos hres]
        have hdl : l.dropLast ++ [last] = l :=
          List.dropLast_append_getLast? last (Option.mem_def.mpr hl)
        calc skeleton (l.dropLast ++ [{ last with result := res }])
            = skeleton l.dropLast ++ [projInv last] := by simp [skeleton, projInv]
          _ = skeleton (l.dropLast ++ [last]) := by simp [skeleton, projInv]
          _ = skeleton l := by rw [hdl]
      · simp [hres]

theorem processToolResult_skeleton (key res : Val) (l : List ToolInvocation) :
    skeleton (processToolResult key res l) = skeleton l := by
  unfold processToolResult
  rw [applyFallback_skeleton, setFirstMatch_skeleton]

theorem skeleton_length (l : List ToolInvocation) : (skeleton l).length = l.length := by
  simp [skeleton]

theorem processToolResult_length (key res : Val) (l : List ToolInvocation) :
    (processToolResult key res l).length = l.length := by
  have h := congrArg List.length (processToolResult_skeleton key res l)
  simpa [skeleton] using h

end UCPAgent

namespace UCPAgent

/-- Claim C4: for a tool-call descriptor in well-formed mapping shape
(the keys tool_call_id, tool_name and args all present), the produced
ToolInvocation carries exactly the id, name and args of the mapping,
with the result slot unset. -/
theorem mapping_shape_exact (count : Nat) (iv nv : Val) (av : Args) :
    decodeDesc count
        (ToolCallDesc.mapping { tool_call_id := some iv, tool_name := some nv, args := some av }) =
      { id := iv, name := nv, args := av, result := Val.vNone } := rfl

/-- Claim C5: in attribute shape each field is resolved by trying the
primary attribute first (tool_call_id, tool_name, args), then the
alternate (id, name, arguments), and when both are absent the default is
substituted: the stringified count of invocations already extracted for
the id, the literal "unknown" for the name, and an empty mapping for the
args; the count passed to the decoder is exactly the length of the
accumulator at the moment the descriptor is processed. -/
theorem attr_shape_resolution :
    (∀ (count : Nat) (a : TCAttr) (v : Val),
       a.tool_call_id = some v → (decodeDesc count (ToolCallDesc.attr a)).id = v) ∧
    (∀ (count : Nat) (a : TCAttr) (v : Val),
       a.tool_call_id = none → a.id = some v → (decodeDesc count (ToolCallDesc.attr a)).id = v) ∧
    (∀ (count : Nat) (a : TCAttr),
       a.tool_call_id = none → a.id = none →
         (decodeDesc count (ToolCallDesc.attr a)).id = Val.vStr (toString count)) ∧
    (∀ (count : Nat) (a : TCAttr) (v : Val),
       a.tool_name = some v → (decodeDesc count (ToolCallDesc.attr a)).name = v) ∧
    (∀ (count : Nat) (a : TCAttr) (v : Val),
       a.tool_name = none → a.name = some v → (decodeDesc count (ToolCallDesc.attr a)).name = v) ∧
    (∀ (count : Nat) (a : TCAttr),
       a.tool_name = none → a.name = none →
         (decodeDesc count (ToolCallDesc.attr a)).name = Val.vStr "unknown") ∧
    (∀ (count : Nat) (a : TCAttr) (v : Args),
       a.args = some v → (decodeDesc count (ToolCallDesc.attr a)).args = v) ∧
    (∀ (count : Nat) (a : TCAttr) (v : Args),
       a.args = none → a.arguments = some v → (decodeDesc count (ToolCallDesc.attr a)).args = v) ∧
    (∀ (count : Nat) (a : TCAttr),
       a.args = none → a.arguments = none → (decodeDesc count (ToolCallDesc.attr a)).args = []) ∧
    (∀ (acc : List ToolInvocation) (d : ToolCallDesc) (rest : List ToolCallDesc),
       appendCalls acc (d :: rest) = appendCalls (acc ++ [decodeDesc acc.length d]) rest) := by
  refine ⟨?_, ?_, ?_, ?_, ?_, ?_, ?_, ?_, ?_, ?_⟩
  · intro count a v h; simp [decodeDesc, h]
  · intro count a v h1 h2; simp [decodeDesc, h1, h2]
  · intro count a h1 h2; simp [decodeDesc, h1, h2]
  · intro count a v h; simp [decodeDesc, h]
  · intro count a v h1 h2; simp [decodeDesc, h1, h2]
  · intro count a h1 h2; simp [decodeDesc, h1, h2]
  · intro count a v h; simp [decodeDesc, h]
  · intro count a v h1 h2; simp [decodeDesc, h1, h2]
  · intro count a h1 h2; simp [decodeDesc, h1, h2]
  · intro acc d rest; rfl

/-- Witness for claim C5: a concrete attribute-shape descriptor with the
primary id absent and the alternate present resolves to the alternate. -/
theorem attr_shape_resolution_witness :
    (decodeDesc 0 (ToolCallDesc.attr
        { tool_call_id := none, id := some (Val.vStr "X"), tool_name := none, name := none,
          args := none, arguments := none })).id = Val.vStr "X" :=
  attr_shape_resolution.2.1 0
    { tool_call_id := none, id := some (Val.vStr "X"), tool_name := none, name := none,
      args := none, arguments := none } (Val.vStr "X") rfl rfl

/-- Claim C6: when the correlation key of a tool-result message matches
no invocation, the handler attaches a truthy payload to the most
recently appended invocation exactly when the result slot of that
invocation is still unset, leaves every earlier invocation untouched,
and a falsy payload is never attached; on an empty list it does
nothing. -/
theorem fallback_no_match_behavior :
    (∀ key res : Val, processToolResult key res [] = []) ∧
    ∀ (key res : Val) (init : List ToolInvocation) (last : ToolInvocation),
      (∀ tc ∈ init ++ [last], tc.id ≠ key) →
      processToolResult key res (init ++ [last]) =
        if res.truthy ∧ last.result = Val.vNone
        then init ++ [{ last with result := res }]
        else init ++ [last] := by
  constructor
  · intro key res
    unfold processToolResult setFirstMatch applyFallback
    cases h : res.truthy <;> simp
  · intro key res init last h
    unfold processToolResult
    rw [setFirstMatch_nomatch key res _ h]
    unfold applyFallback
    cases ht : res.truthy <;> by_cases hr : last.result = Val.vNone <;>
      simp [ht, hr, List.getLast?_concat, List.dropLast_concat]

/-- Witness for claim C6: a single unresolved invocation whose id does
not match the key receives the truthy payload through the fallback. -/
theorem fallback_no_match_behavior_witness :
    processToolResult (Val.vStr "x") (Val.vStr "R")
        ([] ++ [{ id := Val.vStr "a", name := Val.vStr "f", args := [], result := Val.vNone }]) =
      if Val.truthy (Val.vStr "R") ∧ Val.vNone = Val.vNone
      then [] ++ [{ id := Val.vStr "a", name := Val.vStr "f", args := [], result := Val.vStr "R" }]
      else [] ++ [{ id := Val.vStr "a", name := Val.vStr "f", args := [], result := Val.vNone }] :=
  fallback_no_match_behavior.2 (Val.vStr "x") (Val.vStr "R") []
    { id := Val.vStr "a", name := Val.vStr "f", args := [], result := Val.vNone } (by decide)

end UCPAgent

namespace UCPAgent

/-- Claim C1 (failing evaluation): the source runs the best-effort
fallback even when an id match was found.  Here the tool-result message
with key "a" matches the first invocation, yet the payload "R" is also
written into the last invocation "b", contradicting the claim that when
a match exists every other invocation is left unchanged (and the source
comment at line 143, which says the fallback applies only if no match
was found). -/
theorem extract_fallback_fires_despite_id_match :
    extract_tool_calls_from_messages
      [ { tool_calls := some
            [ ToolCallDesc.mapping
                { tool_call_id := some (Val.vStr "a"), tool_name := some (Val.vStr "f"), args := some [] }
            , ToolCallDesc.mapping
                { tool_call_id := some (Val.vStr "b"), tool_name := some (Val.vStr "g"), args := some [] } ]
          role := none, tool_call_id := none, content := none }
      , { tool_calls := none, role := some "tool",
          tool_call_id := some (Val.vStr "a"), content := some (Val.vStr "R") } ] 0 =
      [ { id := Val.vStr "a", name := Val.vStr "f", args := [], result := Val.vStr "R" }
      , { id := Val.vStr "b", name := Val.vStr "g", args := [], result := Val.vStr "R" } ] := by
  rfl

/-- Counterexample to claim C2: one assistant message carrying two
mapping-shape descriptors with the same id "a" yields two records with
id "a"; the second descriptor is appended as a new record and the first
record keeps its unset result and its arguments, so ids are not
pairwise distinct at the moment of insertion. -/
theorem extract_duplicate_id_counterexample :
    extract_tool_calls_from_messages
      [ { tool_calls := some
            [ ToolCallDesc.mapping
                { tool_call_id := some (Val.vStr "a"), tool_name := some (Val.vStr "f"), args := some [] }
            , ToolCallDesc.mapping
                { tool_call_id := some (Val.vStr "a"), tool_name := some (Val.vStr "g"), args := some [] } ]
          role := none, tool_call_id := none, content := none } ] 0 =
      [ { id := Val.vStr "a", name := Val.vStr "f", args := [], result := Val.vNone }
      , { id := Val.vStr "a", name := Val.vStr "g", args := [], result := Val.vNone } ] ∧
    (extract_tool_calls_from_messages
      [ { tool_calls := some
            [ ToolCallDesc.mapping
                { tool_call_id := some (Val.vStr "a"), tool_name := some (Val.vStr "f"), args := some [] }
            , ToolCallDesc.mapping
                { tool_call_id := some (Val.vStr "a"), tool_name := some (Val.vStr "g"), args := some [] } ]
          role := none, tool_call_id := none, content := none } ] 0).map ToolInvocation.id =
      [Val.vStr "a", Val.vStr "a"] := by
  exact ⟨rfl, rfl⟩

/-- Claim C2 (amended): a tool-call descriptor always appends a fresh
record — appending never rewrites any existing record, so reusing an id
produces a second record with the same id rather than an update; the
same holds for tool-call events on the streaming path. -/
theorem tool_call_always_appends :
    (∀ (acc : List ToolInvocation) (tcs : List ToolCallDesc),
       appendCalls acc tcs = acc ++ newOnes acc.length tcs ∧
       (appendCalls acc tcs).length = acc.length + tcs.length) ∧
    ∀ (acc : List ToolInvocation) (cid cname : Val) (cargs : Args),
      processEvent acc (StreamEvent.toolCall cid cname cargs) =
        acc ++ [{ id := cid, name := cname, args := cargs, result := Val.vNone }] := by
  constructor
  · intro acc tcs
    refine ⟨appendCalls_eq tcs acc, ?_⟩
    rw [appendCalls_eq]
    simp [newOnes_length]
  · intro acc cid cname cargs
    rfl

/-- Counterexample to claim C3: the invocation with id "a" first
receives result "R1", and a later tool-result message with the same key
rewrites that same slot to "R2" — the result field is mutated twice over
the run. -/
theorem extract_result_rewritten_counterexample :
    extract_tool_calls_from_messages
      [ { tool_calls := some
            [ ToolCallDesc.mapping
                { tool_call_id := some (Val.vStr "a"), tool_name := some (Val.vStr "f"), args := some [] } ]
          role := none, tool_call_id := none, content := none }
      , { tool_calls := none, role := some "tool",
          tool_call_id := some (Val.vStr "a"), content := some (Val.vStr "R1") } ] 0 =
      [ { id := Val.vStr "a", name := Val.vStr "f", args := [], result := Val.vStr "R1" } ] ∧
    extract_tool_calls_from_messages
      [ { tool_calls := some
            [ ToolCallDesc.mapping
                { tool_call_id := some (Val.vStr "a"), tool_name := some (Val.vStr "f"), args := some [] } ]
          role := none, tool_call_id := none, content := none }
      , { tool_calls := none, role := some "tool",
          tool_call_id := some (Val.vStr "a"), content := some (Val.vStr "R1") }
      , { tool_calls := none, role := some "tool",
          tool_call_id := some (Val.vStr "a"), content := some (Val.vStr "R2") } ] 0 =
      [ { id := Val.vStr "a", name := Val.vStr "f", args := [], result := Val.vStr "R2" } ] := by
  exact ⟨rfl, rfl⟩

/-- Claim C3 (amended): the id-match path overwrites the result slot of
the first invocation whose id equals the key unconditionally, whether or
not a result was already stored there, so a later matching tool-result
message replaces an earlier one; only the fallback path refuses to touch
an invocation whose result is already set. -/
theorem result_overwrite_semantics :
    (∀ (key res : Val) (inv : ToolInvocation) (rest : List ToolInvocation), inv.id = key →
       setFirstMatch key res (inv :: rest) = { inv with result := res } :: rest) ∧
    ∀ (res : Val) (l : List ToolInvocation) (last : ToolInvocation),
      l.getLast? = some last → last.result ≠ Val.vNone → applyFallback res l = l := by
  constructor
  · intro key res inv rest h
    simp only [setFirstMatch, if_pos h]
  · intro res l last hl hr
    unfold applyFallback
    cases ht : res.truthy with
    | false => simp
    | true => simp [hl, hr]

/-- Witness for claim C3 (amended): a concrete invocation whose result
slot already holds "OLD" is overwritten to "R" by a matching
tool-result. -/
theorem result_overwrite_semantics_witness :
    setFirstMatch (Val.vStr "a") (Val.vStr "R")
        [ { id := Val.vStr "a", name := Val.vStr "f", args := [], result := Val.vStr "OLD" } ] =
      [ { id := Val.vStr "a", name := Val.vStr "f", args := [], result := Val.vStr "R" } ] :=
  result_overwrite_semantics.1 (Val.vStr "a") (Val.vStr "R")
    { id := Val.vStr "a", name := Val.vStr "f", args := [], result := Val.vStr "OLD" } [] rfl

end UCPAgent

namespace UCPAgent

/-- Claim C7: in the streaming branch a tool-call event appends an
invocation with the result unset; a tool-result event sets the first
id-matching invocation to the preview when the event offers a truthy
one and to the raw result otherwise, leaving all other invocations in
place; a tool-result event matching nothing leaves the list unchanged
(the total function cannot raise); and the concrete create_cart stream
yields the text "Cart created." together with exactly one invocation
whose result is "cart-42". -/
theorem streaming_semantics :
    (∀ (acc : List ToolInvocation) (cid cname : Val) (cargs : Args),
       processEvent acc (StreamEvent.toolCall cid cname cargs) =
         acc ++ [{ id := cid, name := cname, args := cargs, result := Val.vNone }]) ∧
    (∀ (acc : List ToolInvocation) (cid pv res : Val),
       (∀ tc ∈ acc, tc.id ≠ cid) → processEvent acc (StreamEvent.toolResult cid pv res) = acc) ∧
    (∀ (init rest : List ToolInvocation) (inv : ToolInvocation) (cid pv res : Val),
       (∀ tc ∈ init, tc.id ≠ cid) → inv.id = cid →
       processEvent (init ++ inv :: rest) (StreamEvent.toolResult cid pv res) =
         init ++ { inv with result := pyOr pv res } :: rest) ∧
    run_agent_with_tools_streaming
        [ StreamEvent.toolCall (Val.vInt 1) (Val.vStr "create_cart") []
        , StreamEvent.toolResult (Val.vInt 1) (Val.vStr "cart-42") Val.vNone ]
        "Cart created." =
      ("Cart created.",
        [ { id := Val.vInt 1, name := Val.vStr "create_cart", args := [],
            result := Val.vStr "cart-42" } ]) := by
  refine ⟨fun _ _ _ _ => rfl, ?_, ?_, rfl⟩
  · intro acc cid pv res h
    exact setFirstMatch_nomatch cid (pyOr pv res) acc h
  · intro init rest inv cid pv res h hinv
    exact setFirstMatch_first cid (pyOr pv res) inv rest hinv init h

/-- Witness for claim C7: a tool-result event whose id matches nothing
in a concrete one-element list is dropped without modifying the list. -/
theorem streaming_semantics_witness :
    processEvent [ { id := Val.vStr "a", name := Val.vStr "f", args := [], result := Val.vNone } ]
        (StreamEvent.toolResult (Val.vStr "zzz") Val.vNone (Val.vStr "R")) =
      [ { id := Val.vStr "a", name := Val.vStr "f", args := [], result := Val.vNone } ] :=
  streaming_semantics.2.1
    [ { id := Val.vStr "a", name := Val.vStr "f", args := [], result := Val.vNone } ]
    (Val.vStr "zzz") Val.vNone (Val.vStr "R") (by decide)

/-- Claim C8: the extractor is a pure function of the history and the
start index — it is embedded as a Lean function precisely because the
source only reads the messages (getattr and item access) and writes only
the fresh dicts it created — so two calls on the same immutable history
slice agree, element by element. -/
theorem extract_deterministic :
    ∀ (m₁ m₂ : List Msg) (s₁ s₂ : Nat), m₁ = m₂ → s₁ = s₂ →
      extract_tool_calls_from_messages m₁ s₁ = extract_tool_calls_from_messages m₂ s₂ ∧
      ∀ i : Nat, (extract_tool_calls_from_messages m₁ s₁).get? i =
        (extract_tool_calls_from_messages m₂ s₂).get? i := by
  intro m₁ m₂ s₁ s₂ hm hs
  subst hm
  subst hs
  exact ⟨rfl, fun _ => rfl⟩

/-- Witness for claim C8: two runs over a concrete one-message history
agree. -/
theorem extract_deterministic_witness :
    extract_tool_calls_from_messages
        [ { tool_calls := some
              [ ToolCallDesc.mapping
                  { tool_call_id := some (Val.vStr "a"), tool_name := some (Val.vStr "f"),
                    args := some [] } ]
            role := none, tool_call_id := none, content := none } ] 0 =
      extract_tool_calls_from_messages
        [ { tool_calls := some
              [ ToolCallDesc.mapping
                  { tool_call_id := some (Val.vStr "a"), tool_name := some (Val.vStr "f"),
                    args := some [] } ]
            role := none, tool_call_id := none, content := none } ] 0 :=
  (extract_deterministic
    [ { tool_calls := some
          [ ToolCallDesc.mapping
              { tool_call_id := some (Val.vStr "a"), tool_name := some (Val.vStr "f"),
                args := some [] } ]
        role := none, tool_call_id := none, content := none } ]
    [ { tool_calls := some
          [ ToolCallDesc.mapping
              { tool_call_id := some (Val.vStr "a"), tool_name := some (Val.vStr "f"),
                args := some [] } ]
        role := none, tool_call_id := none, content := none } ] 0 0 rfl rfl).1

/-- Claim C10: handling a role-tool message preserves the id, name and
args of every invocation at its position and never changes the length of
the list; the length grows exactly by the number of descriptors a
message carries, so only tool-call descriptors change the length. -/
theorem tool_result_frame :
    (∀ (key res : Val) (l : List ToolInvocation),
       skeleton (processToolResult key res l) = skeleton l ∧
       (processToolResult key res l).length = l.length) ∧
    (∀ (acc : List ToolInvocation) (msg : Msg) (tcs : List ToolCallDesc),
       msg.tool_calls = some tcs → (processMsg acc msg).length = acc.length + tcs.length) ∧
    ∀ (acc : List ToolInvocation) (msg : Msg),
      msg.tool_calls = none → (processMsg acc msg).length = acc.length := by
  refine ⟨fun key res l => ⟨processToolResult_skeleton key res l, processToolResult_length key res l⟩, ?_, ?_⟩
  · intro acc msg tcs h
    unfold processMsg
    rw [h]
    by_cases hrole : msg.role = some "tool"
    · cases tcs with
      | nil => simp [hrole, processToolResult_length]
      | cons a b =>
        simp [hrole, processToolResult_length, appendCalls_eq, newOnes_length]
    · cases tcs with
      | nil => simp [hrole]
      | cons a b => simp [hrole, appendCalls_eq, newOnes_length]
  · intro acc msg h
    unfold processMsg
    rw [h]
    by_cases hrole : msg.role = some "tool" <;> simp [hrole, processToolResult_length]

/-- Witness for claim C10: a concrete role-tool message with no
descriptors leaves the length of a one-element list unchanged. -/
theorem tool_result_frame_witness :
    (processMsg [ { id := Val.vStr "a", name := Val.vStr "f", args := [], result := Val.vNone } ]
        { tool_calls := none, role := some "tool",
          tool_call_id := some (Val.vStr "a"), content := some (Val.vStr "R") }).length = 1 :=
  tool_result_frame.2.2
    [ { id := Val.vStr "a", name := Val.vStr "f", args := [], result := Val.vNone } ]
    { tool_calls := none, role := some "tool",
      tool_call_id := some (Val.vStr "a"), content := some (Val.vStr "R") } rfl

end UCPAgent
